import Mathlib

/-!
Shallow embedding of the OCR uploader repository:
- src/src/components/OCR.tsx   (client component: retry loop, export formatting)
- src/src/app/apis/ocr/route.ts (API handler: rate limit, validation, response mapping)

Strings are modelled as Lean String / List Char.  The JavaScript whitespace
class \s is modelled by its ASCII subset (space, tab, newline, carriage
return, vertical tab, form feed); both the trim model and the split model use
the same predicate, exactly as String.prototype.trim and split(/\s+/) share
the \s class in JS.
-/

namespace OCR

/-- ASCII fragment of the JS whitespace class \s (used by both trim and
split(/\s+/) in the source). -/
def isWS (c : Char) : Bool :=
  c = ' ' || c = '\t' || c = '\n' || c = '\r' || c = '\x0b' || c = '\x0c'

/-- The JS base64 character class [a-zA-Z0-9+/] from the validation regex in
route.ts line 50. -/
def isB64Char (c : Char) : Bool :=
  ('a' ≤ c && c ≤ 'z') || ('A' ≤ c && c ≤ 'Z') || ('0' ≤ c && c ≤ '9')
    || c = '+' || c = '/'

/-- Model of String.prototype.trim from JS: strip leading and trailing
whitespace (route.ts line 110 and OCR.tsx line 257/268 trim calls). -/
def trimL (l : List Char) : List Char :=
  ((l.dropWhile isWS).reverse.dropWhile isWS).reverse

/-- String-level JS trim. -/
def jsTrim (s : String) : String := ⟨trimL s.data⟩

mutual
/-- Piece accumulator for the JS split(/\s+/) model: scanning inside the
current (possibly still empty) piece, with the accumulated piece chars in
cur (reversed). -/
def splitWSTok : List Char → List Char → List (List Char)
  | [], cur => [cur.reverse]
  | c :: cs, cur =>
    if isWS c then cur.reverse :: splitWSRun cs else splitWSTok cs (c :: cur)

/-- Split model while consuming a maximal whitespace run (the regex \s+
matches greedily, so the whole run is one separator). -/
def splitWSRun : List Char → List (List Char)
  | [] => [[]]
  | c :: cs => if isWS c then splitWSRun cs else splitWSTok cs [c]
end

/-- Model of text.split(/\s+/) from OCR.tsx line 261: pieces between maximal
whitespace runs, with an empty piece at either end when the text starts or
ends with whitespace (JS split semantics). -/
def jsSplitWS (s : String) : List String :=
  (splitWSTok s.data []).map fun l => ⟨l⟩

mutual
/-- Number of maximal nonempty runs of non-whitespace characters
("whitespace-delimited tokens" in the spec), scanning outside a token. -/
def tokCount : List Char → Nat
  | [] => 0
  | c :: cs => if isWS c then tokCount cs else tokCountIn cs + 1

/-- Token counter while inside a token. -/
def tokCountIn : List Char → Nat
  | [] => 0
  | c :: cs => if isWS c then tokCount cs else tokCountIn cs
end

/-- Spec-side notion: the number of whitespace-delimited tokens of a text. -/
def wsTokenCount (s : String) : Nat := tokCount s.data

/-- True when the list is empty or starts with a non-whitespace char. -/
def headNonWS : List Char → Bool
  | [] => true
  | c :: _ => !isWS c

/-- True when the list is empty or ends with a non-whitespace char. -/
def lastNonWS (l : List Char) : Bool := headNonWS l.reverse

/-- Decimal digit characters, helper for the JS number-to-string coercion. -/
def natToCharsAux : Nat → Nat → List Char → List Char
  | 0, _, acc => acc
  | fuel + 1, n, acc =>
    if n < 10 then Nat.digitChar n :: acc
    else natToCharsAux fuel (n / 10) (Nat.digitChar (n % 10) :: acc)

/-- Model of the JS template coercion of a nonnegative integer to its decimal
string (used for row indexes and status codes). -/
def natToChars (n : Nat) : List Char := natToCharsAux (n + 1) n []

/-- String form of natToChars. -/
def natToStr (n : Nat) : String := ⟨natToChars n⟩

/-- Model of text.split('\n') from OCR.tsx lines 257 and 268 (JS split by a
one-character string separator). -/
def splitNl : List Char → List (List Char)
  | [] => [[]]
  | c :: cs =>
    match splitNl cs with
    | [] => [[c]]
    | h :: t => if c = '\n' then [] :: h :: t else (c :: h) :: t

/-- The non-blank lines of a text: pieces of the newline split whose trim is
nonempty, as in .filter(line => line.trim()) in OCR.tsx. -/
def nonBlankLinesL (l : List Char) : List (List Char) :=
  (splitNl l).filter fun ln => !(trimL ln).isEmpty

/-- Model of line.replace(/"/g, '""') from OCR.tsx line 271: double every
embedded double-quote character. -/
def dqEsc : List Char → List Char
  | [] => []
  | c :: cs => if c = '"' then '"' :: '"' :: dqEsc cs else c :: dqEsc cs

/-- Hexadecimal digit character (lowercase, as JSON.stringify emits). -/
def hexDigit (n : Nat) : Char := Nat.digitChar n

/-- JSON string escaping of one character, as performed by JSON.stringify. -/
def jsonEscapeChar (c : Char) : List Char :=
  if c = '"' then ['\\', '"']
  else if c = '\\' then ['\\', '\\']
  else if c = '\n' then ['\\', 'n']
  else if c = '\r' then ['\\', 'r']
  else if c = '\t' then ['\\', 't']
  else if c = '\x08' then ['\\', 'b']
  else if c = '\x0c' then ['\\', 'f']
  else if c.toNat < 32 then
    ['\\', 'u', '0', '0', hexDigit (c.toNat / 16), hexDigit (c.toNat % 16)]
  else [c]

/-- JSON string escaping of a character list. -/
def jsonEscape (l : List Char) : List Char := (l.map jsonEscapeChar).flatten

/-- A JSON string literal: quotes around the escaped content. -/
def jsonStrL (l : List Char) : List Char := '"' :: (jsonEscape l ++ ['"'])

/-- Join a list of character lists with a separator between elements. -/
def joinSepL (sep : List Char) : List (List Char) → List Char
  | [] => []
  | [x] => x
  | x :: y :: t => x ++ sep ++ joinSepL sep (y :: t)

/-- JSON.stringify rendering of the lines array at nesting depth 1 with
indent 2 (as in JSON.stringify(jsonData, null, 2)): an empty array prints
as two brackets; otherwise items are placed on their own lines at four
spaces of indent with the closing bracket at two. -/
def stringifyLinesL (lines : List (List Char)) : List Char :=
  match lines with
  | [] => ['[', ']']
  | _ =>
    ("[\n").data
      ++ joinSepL (",\n").data (lines.map fun ln => ("    ").data ++ jsonStrL ln)
      ++ ("\n  ]").data

/-- The JSONData object built in the json branch of getFormattedData
(OCR.tsx lines 258-264); extractedAt is the current clock reading
new Date().toISOString(), an input of the environment. -/
structure JSONData where
  extractedText : String
  lines : List String
  wordCount : Nat
  characterCount : Nat
  extractedAt : String
  deriving DecidableEq

/-- Construction of the JSONData object from the stored text and the current
timestamp, field by field as in OCR.tsx lines 257-264. -/
def jsonDataOf (t now : String) : JSONData :=
  { extractedText := t
    lines := (nonBlankLinesL t.data).map fun l => (⟨l⟩ : String)
    wordCount := (jsSplitWS t).length
    characterCount := t.length
    extractedAt := now }

/-- JSON.stringify(jsonData, null, 2) for the five-field object above: keys
in insertion order, two-space indent. -/
def stringifyJsonData (d : JSONData) : List Char :=
  ("\x7b\n  \"extractedText\": ").data ++ jsonStrL d.extractedText.data
    ++ (",\n  \"lines\": ").data ++ stringifyLinesL (d.lines.map String.data)
    ++ (",\n  \"wordCount\": ").data ++ natToChars d.wordCount
    ++ (",\n  \"characterCount\": ").data ++ natToChars d.characterCount
    ++ (",\n  \"extractedAt\": ").data ++ jsonStrL d.extractedAt.data
    ++ ("\n\x7d").data

/-- The CSV header row literal 'Line Number,Content' from OCR.tsx line 269. -/
def csvHeader : List Char := ("Line Number,Content").data

/-- The data rows of the CSV view: the forEach loop of OCR.tsx lines 270-272,
row k (0-based) rendered as the template with index k+1 and the content field
quoted with embedded quotes doubled, each row terminated by a newline. -/
def csvRowsL : Nat → List (List Char) → List Char
  | _, [] => []
  | i, ln :: lns =>
    natToChars (i + 1) ++ ',' :: '"' :: (dqEsc ln ++ '"' :: '\n' :: csvRowsL (i + 1) lns)

/-- The csv branch of getFormattedData: header line then one row per
non-blank line. -/
def csvFormatL (l : List Char) : List Char :=
  csvHeader ++ '\n' :: csvRowsL 0 (nonBlankLinesL l)

/-- Spec-side shape of one CSV data row (without its terminating newline):
the one-based row number, a comma, then the content field enclosed in double
quotes with every embedded double quote doubled. -/
def csvRowOf (i : Nat) (ln : List Char) : List Char :=
  natToChars (i + 1) ++ ',' :: '"' :: (dqEsc ln ++ ['"'])

/-- Spec-side list of the CSV data rows for the given lines, numbering from
row index i. -/
def csvRowsSpec : Nat → List (List Char) → List (List Char)
  | _, [] => []
  | i, ln :: lns => csvRowOf i ln :: csvRowsSpec (i + 1) lns

/-- The activeFormat enumeration of OCR.tsx. -/
inductive FormatType where
  | text
  | json
  | csv
  deriving DecidableEq

/-- Model of getFormattedData from OCR.tsx lines 252-279.  The stored text
and active format are the component state the function reads; the current
clock reading (new Date().toISOString()) enters through the json branch and
is therefore an explicit argument of the model. -/
def getFormattedData (fmt : FormatType) (text : String) (now : String) : String :=
  if text = "" then ""
  else
    match fmt with
    | .json => ⟨stringifyJsonData (jsonDataOf text now)⟩
    | .csv => ⟨csvFormatL text.data⟩
    | .text => text

/-! ### API handler model (src/src/app/apis/ocr/route.ts) -/

/-- Does the first list occur at the start of the second one? -/
def startsWithL : List Char → List Char → Bool
  | [], _ => true
  | _ :: _, [] => false
  | p :: ps, c :: cs => p = c && startsWithL ps cs

/-- Does the first list occur anywhere inside the second (the JS
String.prototype.includes used by the catch-block classification)? -/
def containsL (pat : List Char) : List Char → Bool
  | [] => startsWithL pat []
  | c :: cs => startsWithL pat (c :: cs) || containsL pat cs

/-- String level includes. -/
def containsStr (s pat : String) : Bool := containsL pat.data s.data

/-- Strip an expected leading literal, returning the remainder when the
literal is present (helper for the anchored validation regex). -/
def dropStart : List Char → List Char → Option (List Char)
  | [], l => some l
  | _ :: _, [] => none
  | p :: ps, c :: cs => if c = p then dropStart ps cs else none

/-- The payload part of the validation regex, [a-zA-Z0-9+/]+=\x7b0,2\x7d
anchored at the end: a nonempty run of base64 characters followed by at most
two padding equals signs.  Because the equals sign is not a base64 character,
the regex accepts exactly the strings whose maximal leading base64 run is
nonempty and whose remainder is zero, one or two equals signs. -/
def payloadOK (l : List Char) : Bool :=
  !(l.takeWhile isB64Char).isEmpty
    && (decide (l.dropWhile isB64Char = [])
        || decide (l.dropWhile isB64Char = ['='])
        || decide (l.dropWhile isB64Char = ['=', '=']))

/-- The subtype alternation (png|jpeg|jpg|gif|webp) followed by the literal
;base64, of the validation regex.  The regex alternatives are attempted left
to right; since the languages are each a fixed literal, the union equals the
first-match search below. -/
def subtypeDrop (r : List Char) : Option (List Char) :=
  (dropStart ("png;base64,").data r).orElse fun _ =>
  (dropStart ("jpeg;base64,").data r).orElse fun _ =>
  (dropStart ("jpg;base64,").data r).orElse fun _ =>
  (dropStart ("gif;base64,").data r).orElse fun _ =>
  dropStart ("webp;base64,").data r

/-- Model of the anchored validation regex of route.ts line 50:
data colon image slash, an accepted subtype, the base64 marker, then a valid
base64 payload with optional padding, with nothing after it. -/
def base64RegexTest (s : String) : Bool :=
  match dropStart ("data:image/").data s.data with
  | none => false
  | some r =>
    match subtypeDrop r with
    | none => false
    | some payload => payloadOK payload

/-- Model of base64Image.split(';base64,') from route.ts line 59: JS split
by the literal separator, scanning left to right, cutting at every
occurrence.  The separator is matched structurally character by character. -/
def splitB64 : List Char → List Char → List (List Char)
  | ';' :: 'b' :: 'a' :: 's' :: 'e' :: '6' :: '4' :: ',' :: rest, cur =>
    cur.reverse :: splitB64 rest []
  | c :: cs, cur => splitB64 cs (c :: cur)
  | [], cur => [cur.reverse]

/-- String-level split at the ;base64, separator. -/
def jsSplitB64 (s : String) : List String :=
  (splitB64 s.data []).map fun l => (⟨l⟩ : String)

/-- Model of mimeType.replace('data:', '') from route.ts line 103: remove the
first occurrence of the literal data colon. -/
def replaceDataColon : List Char → List Char
  | 'd' :: 'a' :: 't' :: 'a' :: ':' :: rest => rest
  | c :: cs => c :: replaceDataColon cs
  | [] => []

/-- Response bodies the handler produces: either a text field or an error
field. -/
inductive JsonBody where
  | textBody (text : String)
  | errorBody (error : String)
  deriving DecidableEq

/-- An HTTP response of the handler: status code plus JSON body. -/
structure HResp where
  status : Nat
  body : JsonBody
  deriving DecidableEq

/-- Outcome of the awaited model.generateContent call: a returned raw text,
a thrown Error with a message, or a thrown non-Error value. -/
inductive ModelOutcome where
  | ok (raw : String)
  | errThrow (msg : String)
  | otherThrow

/-- The rate-limit ceiling RATE_LIMIT.max = 10 of route.ts line 11. -/
def RATE_LIMIT_max : Nat := 10

/-- The catch-block classification of route.ts lines 127-138: message
substring checks in order, defaulting to a 500 with the generic message. -/
def classifyError (msg : String) : Nat × String :=
  if containsStr msg "invalid base64" then (400, "Invalid image data format")
  else if containsStr msg "content policy" then (400, "Image violates content policy")
  else if containsStr msg "timeout" then (408, "Processing timeout. Please try a smaller image.")
  else (500, "Failed to extract text")

/-- The response mapping of route.ts lines 110-119: trim the model text; an
empty result or the sentinel token yields the 400 no-text error, otherwise
the trimmed text is the 200 success body. -/
def mapModelText (raw : String) : HResp :=
  let text := jsTrim raw
  if text = "" ∨ text = "[NO_TEXT_FOUND]" then
    ⟨400, .errorBody "No text could be extracted from the image"⟩
  else ⟨200, .textBody text⟩

/-- The per-IP request counter map (route.ts line 14), modelled as an
association list. -/
def mapGet : List (String × Nat) → String → Option Nat
  | [], _ => none
  | (k, v) :: t, key => if k = key then some v else mapGet t key

/-- Update of the counter map, replacing an existing binding or appending. -/
def mapSet : List (String × Nat) → String → Nat → List (String × Nat)
  | [], key, v => [(key, v)]
  | (k, w) :: t, key, v =>
    if k = key then (key, v) :: t else (k, w) :: mapSet t key v

/-- Model of the POST handler of route.ts lines 25-145 for one request.
counts is the shared requestCounts map, ip the resolved client IP,
base64Image the parsed body field (none when absent or undefined — the JS
falsy check also treats the empty string as missing, modelled explicitly),
and model the external generateContent service: call index, payload data and
mime type to outcome.  Returns the updated counter map and the response. -/
def POSTrespOcr (counts : List (String × Nat)) (ip : String)
    (base64Image : Option String)
    (model : Nat → String → String → ModelOutcome) : HResp :=
  let count := (mapGet counts ip).getD 0 + 1
  if count > RATE_LIMIT_max then
    ⟨429, .errorBody "Too many requests. Please try again later."⟩
  else
    match base64Image with
    | none => ⟨400, .errorBody "Image is required"⟩
    | some img =>
      if img = "" then ⟨400, .errorBody "Image is required"⟩
      else if !base64RegexTest img then
        ⟨400, .errorBody "Invalid image format. Supported formats: PNG, JPEG, JPG, GIF, WEBP"⟩
      else
        let parts := jsSplitB64 img
        let mimeType := (parts.get? 0).getD ""
        let base64Data := (parts.get? 1).getD ""
        if mimeType = "" ∨ base64Data = "" then
          ⟨400, .errorBody "Invalid base64 image data"⟩
        else if base64Data.length < 1000 then
          ⟨400, .errorBody "Image data too small. Please upload a higher quality image."⟩
        else
          match model 0 base64Data ⟨replaceDataColon mimeType.data⟩ with
          | .ok raw => mapModelText raw
          | .errThrow msg =>
            let (status, emsg) := classifyError msg
            ⟨status, .errorBody emsg⟩
          | .otherThrow => ⟨500, .errorBody "Failed to extract text"⟩

/-- The full handler step: the counter is written back before any return
(route.ts line 30), so the updated map is paired with the response computed
by POSTrespOcr. -/
def POSTocr (counts : List (String × Nat)) (ip : String)
    (base64Image : Option String)
    (model : Nat → String → String → ModelOutcome) :
    List (String × Nat) × HResp :=
  (mapSet counts ip ((mapGet counts ip).getD 0 + 1),
   POSTrespOcr counts ip base64Image model)

/-! ### Client retry loop model (processImage, OCR.tsx lines 125-157) -/

/-- Outcome of one fetch attempt: a parsed response (res.ok flag, status,
optional text and error fields of the JSON body), a thrown Error (network
failure or the AbortSignal timeout), or a thrown non-Error value. -/
inductive FetchOutcome where
  | response (ok : Bool) (status : Nat) (text : Option String) (error : Option String)
  | thrownError (msg : String)
  | thrownOther

/-- The success test of OCR.tsx line 139: res.ok and a truthy data.text;
returns the stored text on success. -/
def fetchSuccessText : FetchOutcome → Option String
  | .response true _ (some t) _ => if t = "" then none else some t
  | _ => none

/-- The error message of a failed attempt: the thrown message for network
errors, data.error when truthy, otherwise the status template of OCR.tsx
line 143; a non-Error value reads as the unknown-error message of line 147. -/
def fetchErrMsg : FetchOutcome → String
  | .response _ status _ err =>
    match err with
    | some e => if e = "" then "OCR API failed with status " ++ natToStr status else e
    | none => "OCR API failed with status " ++ natToStr status
  | .thrownError m => m
  | .thrownOther => "Unknown error"

/-- What the retry loop leaves in component state: the stored text on
success, the user-facing error after exhaustion, and the backoff delays
performed (in milliseconds, in order). -/
structure RetryResult where
  text : Option String
  error : Option String
  delays : List Nat
  deriving DecidableEq

/-- maxRetries = 3 from OCR.tsx line 125. -/
def maxRetries : Nat := 3

/-- The while loop of OCR.tsx lines 128-157.  attempt is the loop counter;
fuel equals maxRetries minus attempt, so fuel zero is exactly the loop guard
attempt less than maxRetries failing.  On failure the counter is
incremented first; reaching maxRetries sets the user-facing error, otherwise
the loop sleeps 1000 times two to the power of the incremented attempt. -/
def retryGo (out : Nat → FetchOutcome) : Nat → Nat → List Nat → RetryResult
  | _, 0, delays => ⟨none, none, delays.reverse⟩
  | attempt, fuel + 1, delays =>
    match fetchSuccessText (out attempt) with
    | some t => ⟨some t, none, delays.reverse⟩
    | none =>
      let attempt' := attempt + 1
      if attempt' = maxRetries then
        ⟨none,
         some ("Failed to extract text after 3 attempts: " ++ fetchErrMsg (out attempt)),
         delays.reverse⟩
      else retryGo out attempt' fuel ((1000 * 2 ^ attempt') :: delays)

/-- The retry loop as entered by processImage: attempt 0, full fuel. -/
def processRetry (out : Nat → FetchOutcome) : RetryResult :=
  retryGo out 0 maxRetries []

/-! ### Theorems -/

/-- C10: when the stored text is the empty string, getFormattedData returns
the empty string for every active format and clock reading (OCR.tsx line
253); in particular the empty string contains no CSV header row and is not a
JSON object. -/
theorem c10_empty_text_empty_view :
    ∀ (fmt : FormatType) (now : String), getFormattedData fmt "" now = "" := by
  intro fmt now
  simp [getFormattedData]

/-- C2 counterexample: getFormattedData is not a pure function of the stored
text and the active format alone.  In the json format the output embeds the
current clock reading new Date().toISOString() (OCR.tsx line 263), so
evaluating the view twice for the same text in the same format yields
different strings at different clock readings. -/
theorem c2_counterexample :
    getFormattedData .json "a" "2024-01-01T00:00:00.000Z"
      ≠ getFormattedData .json "a" "2024-01-01T00:00:01.000Z" := by
  decide

/-- C2 amended: for the text and csv formats the formatted view is a pure
function of the stored text and the active format, so re-requesting those
views is idempotent; the json view additionally embeds the current clock
reading and is reproducible only at an unchanged clock. -/
theorem c2_pure_for_text_and_csv :
    ∀ (t now now' : String),
      getFormattedData .text t now = getFormattedData .text t now'
        ∧ getFormattedData .csv t now = getFormattedData .csv t now' := by
  intro t now now'
  constructor <;> simp [getFormattedData]

/-- C3: whenever the model response, after trimming, is empty or equals the
sentinel token, the handler response mapping returns the 400 no-text error,
never a success body (route.ts lines 110-117). -/
theorem c3_sentinel_is_error (raw : String)
    (h : jsTrim raw = "" ∨ jsTrim raw = "[NO_TEXT_FOUND]") :
    mapModelText raw = ⟨400, .errorBody "No text could be extracted from the image"⟩ := by
  unfold mapModelText
  rcases h with h | h <;> simp [h]

/-- C3 witness: the sentinel response itself is rejected with the 400
no-text error. -/
theorem c3_sentinel_is_error_witness :
    mapModelText "[NO_TEXT_FOUND]"
      = ⟨400, .errorBody "No text could be extracted from the image"⟩ :=
  c3_sentinel_is_error "[NO_TEXT_FOUND]" (Or.inr (by decide))

/-- C5: in the client-side retry loop, when the first two attempts fail and
the third succeeds, processImage stores the successful text, performs
exactly the two backoff delays 1000 times 2 to the first and 1000 times 2 to
the second milliseconds (1s times 2 to the power of the incremented attempt
counter), and sets no error; when all three attempts fail it instead sets
the user-facing error built from the last failure message
(OCR.tsx lines 125-157). -/
theorem c5_retry_two_failures (out : Nat → FetchOutcome)
    (h0 : fetchSuccessText (out 0) = none)
    (h1 : fetchSuccessText (out 1) = none) :
    (∀ t, fetchSuccessText (out 2) = some t →
       processRetry out = ⟨some t, none, [1000 * 2 ^ 1, 1000 * 2 ^ 2]⟩)
      ∧ (fetchSuccessText (out 2) = none →
          processRetry out
            = ⟨none,
               some ("Failed to extract text after 3 attempts: " ++ fetchErrMsg (out 2)),
               [1000 * 2 ^ 1, 1000 * 2 ^ 2]⟩) := by
  constructor
  · intro t h2
    simp [processRetry, maxRetries, retryGo, h0, h1, h2]
  · intro h2
    simp [processRetry, maxRetries, retryGo, h0, h1, h2]

/-- C5 witness: two network failures then a successful response with text
hello yields the stored text hello, no error, and exactly the backoff
delays two and four seconds. -/
theorem c5_retry_two_failures_witness :
    processRetry
        (fun n => if n < 2 then .thrownError "network error"
                  else .response true 200 (some "hello") none)
      = ⟨some "hello", none, [1000 * 2 ^ 1, 1000 * 2 ^ 2]⟩ :=
  (c5_retry_two_failures
      (fun n => if n < 2 then .thrownError "network error"
                else .response true 200 (some "hello") none)
      (by decide) (by decide)).1 "hello" (by decide)

/-- Updating a key stores exactly the written value. -/
theorem mapGet_mapSet_same (m : List (String × Nat)) (k : String) (v : Nat) :
    mapGet (mapSet m k v) k = some v := by
  induction m with
  | nil => simp [mapGet, mapSet]
  | cons p t ih =>
    obtain ⟨a, b⟩ := p
    by_cases h : a = k <;> simp [mapGet, mapSet, h, ih]

/-- Updating a key leaves every other key unchanged. -/
theorem mapGet_mapSet_other (m : List (String × Nat)) (k : String) (v : Nat)
    (k' : String) (h : k ≠ k') :
    mapGet (mapSet m k v) k' = mapGet m k' := by
  induction m with
  | nil => simp [mapGet, mapSet, h]
  | cons p t ih =>
    obtain ⟨a, b⟩ := p
    by_cases ha : a = k
    · subst ha
      simp [mapGet, mapSet, h]
    · by_cases ha' : a = k' <;> simp [mapGet, mapSet, ha, ha', Ne.symm h, ih]

/-- C8: each POST request increments the requesting IP's counter by exactly
one and touches no other counter; no step of the handler ever decrements or
resets a counter (the map only ever receives the incremented value, route.ts
lines 28-30); and once an IP's stored counter exceeds the ceiling 10, every
later request of that IP receives status 429 with a response that does not
depend on the request body or on the external model (route.ts lines 32-37). -/
theorem c8_rate_counter (counts : List (String × Nat)) (ip : String)
    (body : Option String) (model : Nat → String → String → ModelOutcome) :
    mapGet (POSTocr counts ip body model).1 ip
        = some ((mapGet counts ip).getD 0 + 1)
      ∧ (∀ k, ip ≠ k → mapGet (POSTocr counts ip body model).1 k = mapGet counts k)
      ∧ (∀ k, (mapGet counts k).getD 0 ≤ (mapGet (POSTocr counts ip body model).1 k).getD 0)
      ∧ ((mapGet counts ip).getD 0 > RATE_LIMIT_max →
          (POSTocr counts ip body model).2
              = ⟨429, .errorBody "Too many requests. Please try again later."⟩
            ∧ ∀ body' model', POSTocr counts ip body' model'
                = POSTocr counts ip body model) := by
  refine ⟨?_, ?_, ?_, ?_⟩
  · simp [POSTocr, mapGet_mapSet_same]
  · intro k hk
    simp [POSTocr, mapGet_mapSet_other counts ip _ k hk]
  · intro k
    by_cases hk : ip = k
    · subst hk
      simp [POSTocr, mapGet_mapSet_same]
    · simp [POSTocr, mapGet_mapSet_other counts ip _ k hk]
  · intro hgt
    have hc : (mapGet counts ip).getD 0 + 1 > RATE_LIMIT_max :=
      Nat.lt_trans hgt (Nat.lt_succ_self _)
    constructor
    · simp [POSTocr, POSTrespOcr, hc]
    · intro body' model'
      simp [POSTocr, POSTrespOcr, hc]

/-- C8 witness: with a stored counter of 11 for the client IP, a further
request (here with no body at all) gets counter 12 and the 429 response. -/
theorem c8_rate_counter_witness :
    mapGet (POSTocr [("1.2.3.4", 11)] "1.2.3.4" none
        (fun _ _ _ => ModelOutcome.otherThrow)).1 "1.2.3.4" = some 12
      ∧ (POSTocr [("1.2.3.4", 11)] "1.2.3.4" none
          (fun _ _ _ => ModelOutcome.otherThrow)).2
          = ⟨429, .errorBody "Too many requests. Please try again later."⟩ := by
  have h := c8_rate_counter [("1.2.3.4", 11)] "1.2.3.4" none
    (fun _ _ _ => ModelOutcome.otherThrow)
  exact ⟨h.1.trans (by decide), (h.2.2.2 (by decide)).1⟩

/-- C4: a request whose base64Image string fails the accepted data-URL
grammar (route.ts line 50) is answered with status 400, and the response
does not depend on the external model, so no model call is attempted
(the request is assumed to be under the advisory rate ceiling, otherwise the
limiter answers 429 first, still without a model call). -/
theorem c4_bad_grammar_rejected (counts : List (String × Nat)) (ip img : String)
    (model : Nat → String → String → ModelOutcome)
    (hcount : (mapGet counts ip).getD 0 + 1 ≤ RATE_LIMIT_max)
    (hbad : base64RegexTest img = false) :
    ((POSTocr counts ip (some img) model).2).status = 400
      ∧ ∀ model', POSTocr counts ip (some img) model'
          = POSTocr counts ip (some img) model := by
  have hc : ¬ ((mapGet counts ip).getD 0 + 1 > RATE_LIMIT_max) := by omega
  constructor
  · by_cases him : img = "" <;> simp [POSTocr, POSTrespOcr, hc, him, hbad]
  · intro model'
    by_cases him : img = "" <;> simp [POSTocr, POSTrespOcr, hc, him, hbad]

/-- C4 witness: a plain string that is not a data URL is rejected with 400,
identically for two different external models. -/
theorem c4_bad_grammar_rejected_witness :
    ((POSTocr [] "client" (some "not-a-data-url")
        (fun _ _ _ => ModelOutcome.otherThrow)).2).status = 400
      ∧ POSTocr [] "client" (some "not-a-data-url")
            (fun _ _ _ => ModelOutcome.ok "hi")
          = POSTocr [] "client" (some "not-a-data-url")
            (fun _ _ _ => ModelOutcome.otherThrow) := by
  have h := c4_bad_grammar_rejected [] "client" "not-a-data-url"
    (fun _ _ _ => ModelOutcome.otherThrow) (by decide) (by decide)
  exact ⟨h.1, h.2 (fun _ _ _ => ModelOutcome.ok "hi")⟩

/-- C9: the catch-block classification of route.ts lines 120-144.  A thrown
Error whose message signals malformed base64 input yields 400; otherwise a
detected content-policy violation yields 400; otherwise a detected timeout
yields 408; every other exception yields 500 with the generic message.  The
final conjunct is the no-retry property: the handler consults the external
model only through a single call (call index 0), so its result never depends
on later call outcomes. -/
theorem c9_error_classification (msg : String) :
    (containsStr msg "invalid base64" = true →
        classifyError msg = (400, "Invalid image data format"))
      ∧ (containsStr msg "invalid base64" = false →
         containsStr msg "content policy" = true →
          classifyError msg = (400, "Image violates content policy"))
      ∧ (containsStr msg "invalid base64" = false →
         containsStr msg "content policy" = false →
         containsStr msg "timeout" = true →
          classifyError msg = (408, "Processing timeout. Please try a smaller image."))
      ∧ (containsStr msg "invalid base64" = false →
         containsStr msg "content policy" = false →
         containsStr msg "timeout" = false →
          classifyError msg = (500, "Failed to extract text"))
      ∧ (∀ counts ip body (m m' : Nat → String → String → ModelOutcome),
          (∀ p mt, m 0 p mt = m' 0 p mt) →
          POSTocr counts ip body m = POSTocr counts ip body m') := by
  refine ⟨?_, ?_, ?_, ?_, ?_⟩
  · intro h1
    simp [classifyError, h1]
  · intro h1 h2
    simp [classifyError, h1, h2]
  · intro h1 h2 h3
    simp [classifyError, h1, h2, h3]
  · intro h1 h2 h3
    simp [classifyError, h1, h2, h3]
  · intro counts ip body m m' hm
    unfold POSTocr POSTrespOcr
    simp only [hm]

/-- Stripping a literal recovers the concatenation. -/
theorem dropStart_eq (p : List Char) :
    ∀ l r, dropStart p l = some r → l = p ++ r := by
  induction p with
  | nil =>
    intro l r h
    simp [dropStart] at h
    simp [h]
  | cons x xs ih =>
    intro l r h
    cases l with
    | nil => simp [dropStart] at h
    | cons c cs =>
      simp only [dropStart] at h
      split at h
      · rename_i hcx
        subst hcx
        simp [ih cs r h]
      · cases h

/-- The subtype alternation succeeds exactly by stripping one of the five
subtype and base64 marker literals. -/
theorem subtypeDrop_eq (r payload : List Char) (h : subtypeDrop r = some payload) :
    r = ("png;base64,").data ++ payload ∨ r = ("jpeg;base64,").data ++ payload
      ∨ r = ("jpg;base64,").data ++ payload ∨ r = ("gif;base64,").data ++ payload
      ∨ r = ("webp;base64,").data ++ payload := by
  unfold subtypeDrop at h
  cases h1 : dropStart ("png;base64,").data r with
  | some p =>
    rw [h1] at h
    simp only [Option.orElse] at h
    cases h
    exact Or.inl (dropStart_eq _ _ _ h1)
  | none =>
    rw [h1] at h
    simp only [Option.orElse] at h
    cases h2 : dropStart ("jpeg;base64,").data r with
    | some p =>
      rw [h2] at h
      simp only [Option.orElse] at h
      cases h
      exact Or.inr (Or.inl (dropStart_eq _ _ _ h2))
    | none =>
      rw [h2] at h
      simp only [Option.orElse] at h
      cases h3 : dropStart ("jpg;base64,").data r with
      | some p =>
        rw [h3] at h
        simp only [Option.orElse] at h
        cases h
        exact Or.inr (Or.inr (Or.inl (dropStart_eq _ _ _ h3)))
      | none =>
        rw [h3] at h
        simp only [Option.orElse] at h
        cases h4 : dropStart ("gif;base64,").data r with
        | some p =>
          rw [h4] at h
          simp only [Option.orElse] at h
          cases h
          exact Or.inr (Or.inr (Or.inr (Or.inl (dropStart_eq _ _ _ h4))))
        | none =>
          rw [h4] at h
          simp only [Option.orElse] at h
          exact Or.inr (Or.inr (Or.inr (Or.inr (dropStart_eq _ _ _ h))))

/-- A payload accepted by the regex tail contains no semicolon and is
nonempty. -/
theorem payloadOK_props (l : List Char) (h : payloadOK l = true) :
    (∀ c ∈ l, c ≠ ';') ∧ l ≠ [] := by
  unfold payloadOK at h
  rw [Bool.and_eq_true] at h
  obtain ⟨h1, h2⟩ := h
  have ht : l.takeWhile isB64Char ≠ [] := by
    simpa using h1
  simp only [Bool.or_eq_true, decide_eq_true_eq] at h2
  constructor
  · intro c hc
    rw [← List.takeWhile_append_dropWhile (p := isB64Char) (l := l)] at hc
    rcases List.mem_append.mp hc with hc | hc
    · have hb := List.mem_takeWhile_imp hc
      intro he
      subst he
      exact absurd hb (by decide)
    · rcases h2 with (hr | hr) | hr <;> rw [hr] at hc <;> simp at hc <;>
        (subst hc; decide)
  · intro he
    subst he
    simp at ht

/-- The split scanner steps over any character that cannot start the
separator. -/
theorem splitB64_cons_ne (c : Char) (cs cur : List Char) (h : c ≠ ';') :
    splitB64 (c :: cs) cur = splitB64 cs (c :: cur) := by
  conv_lhs => rw [splitB64.eq_def]
  split
  · rename_i rest heq
    rw [List.cons.injEq] at heq
    exact absurd heq.1 h
  · rename_i c' cs' hno heq
    injection heq with h1 h2
    subst h1
    subst h2
    rfl
  · rename_i heq
    cases heq

/-- The split scanner cuts at an occurrence of the separator. -/
theorem splitB64_sep (rest cur : List Char) :
    splitB64 ((";base64,").data ++ rest) cur = cur.reverse :: splitB64 rest [] := by
  rfl

/-- Splitting a semicolon-free list at the base64 separator returns it
whole (prepended with the pending piece). -/
theorem splitB64_no_semi (b : List Char) :
    ∀ cur, (∀ c ∈ b, c ≠ ';') → splitB64 b cur = [cur.reverse ++ b] := by
  induction b with
  | nil =>
    intro cur _
    simp [splitB64]
  | cons c cs ih =>
    intro cur hb
    rw [splitB64_cons_ne c cs cur (hb c (by simp))]
    rw [ih (c :: cur) fun x hx => hb x (by simp [hx])]
    simp

/-- A list containing exactly one base64 separator occurrence (its only
semicolon the separator head) splits into the part before and the part
after. -/
theorem splitB64_single (a b : List Char)
    (ha : ∀ c ∈ a, c ≠ ';') (hb : ∀ c ∈ b, c ≠ ';') :
    ∀ cur, splitB64 ((a ++ (";base64,").data) ++ b) cur = [cur.reverse ++ a, b] := by
  induction a with
  | nil =>
    intro cur
    simp only [List.nil_append]
    rw [splitB64_sep]
    rw [splitB64_no_semi b [] hb]
    simp
  | cons c cs ih =>
    intro cur
    have hstep : ((c :: cs ++ (";base64,").data) ++ b)
        = c :: ((cs ++ (";base64,").data) ++ b) := by simp
    rw [hstep, splitB64_cons_ne c _ cur (ha c (by simp))]
    rw [ih (fun x hx => ha x (by simp [hx])) (c :: cur)]
    simp

/-- The handler's split at the base64 marker, on a string whose only
semicolon is the marker head. -/
theorem jsSplitB64_case (img : String) (A payload : List Char)
    (hA : ∀ c ∈ A, c ≠ ';') (hP : ∀ c ∈ payload, c ≠ ';')
    (hdata : img.data = (A ++ (";base64,").data) ++ payload) :
    jsSplitB64 img = [⟨A⟩, ⟨payload⟩] := by
  unfold jsSplitB64
  rw [hdata, splitB64_single A payload hA hP []]
  simp

/-- A string accepted by the validation regex decomposes as the part before
the base64 marker, the marker, and the payload; the handler's split at the
marker therefore yields exactly those two nonempty parts (route.ts line
59). -/
theorem jsSplitB64_of_regex (img : String) (hre : base64RegexTest img = true) :
    ∃ A payload,
      jsSplitB64 img = [⟨A⟩, ⟨payload⟩]
        ∧ A ≠ [] ∧ payload ≠ []
        ∧ img.data = (A ++ (";base64,").data) ++ payload := by
  unfold base64RegexTest at hre
  cases h1 : dropStart ("data:image/").data img.data with
  | none =>
    rw [h1] at hre
    simp at hre
  | some r =>
    rw [h1] at hre
    dsimp only at hre
    cases h2 : subtypeDrop r with
    | none =>
      rw [h2] at hre
      simp at hre
    | some payload =>
      rw [h2] at hre
      dsimp only at hre
      have hr := dropStart_eq _ _ _ h1
      obtain ⟨hnosemi, hne⟩ := payloadOK_props payload hre
      rcases subtypeDrop_eq r payload h2 with hp | hp | hp | hp | hp <;> subst hp
      · have hdata : img.data = (("data:image/png").data ++ (";base64,").data) ++ payload := by
          rw [hr, ← List.append_assoc]
          rw [show ("data:image/").data ++ ("png;base64,").data
              = ("data:image/png").data ++ (";base64,").data from by decide]
        exact ⟨_, payload,
          jsSplitB64_case img _ payload (by decide) hnosemi hdata, by decide, hne, hdata⟩
      · have hdata : img.data = (("data:image/jpeg").data ++ (";base64,").data) ++ payload := by
          rw [hr, ← List.append_assoc]
          rw [show ("data:image/").data ++ ("jpeg;base64,").data
              = ("data:image/jpeg").data ++ (";base64,").data from by decide]
        exact ⟨_, payload,
          jsSplitB64_case img _ payload (by decide) hnosemi hdata, by decide, hne, hdata⟩
      · have hdata : img.data = (("data:image/jpg").data ++ (";base64,").data) ++ payload := by
          rw [hr, ← List.append_assoc]
          rw [show ("data:image/").data ++ ("jpg;base64,").data
              = ("data:image/jpg").data ++ (";base64,").data from by decide]
        exact ⟨_, payload,
          jsSplitB64_case img _ payload (by decide) hnosemi hdata, by decide, hne, hdata⟩
      · have hdata : img.data = (("data:image/gif").data ++ (";base64,").data) ++ payload := by
          rw [hr, ← List.append_assoc]
          rw [show ("data:image/").data ++ ("gif;base64,").data
              = ("data:image/gif").data ++ (";base64,").data from by decide]
        exact ⟨_, payload,
          jsSplitB64_case img _ payload (by decide) hnosemi hdata, by decide, hne, hdata⟩
      · have hdata : img.data = (("data:image/webp").data ++ (";base64,").data) ++ payload := by
          rw [hr, ← List.append_assoc]
          rw [show ("data:image/").data ++ ("webp;base64,").data
              = ("data:image/webp").data ++ (";base64,").data from by decide]
        exact ⟨_, payload,
          jsSplitB64_case img _ payload (by decide) hnosemi hdata, by decide, hne, hdata⟩

/-- C7: a request whose data-URL passes the grammar but whose base64 payload
is shorter than the 1000-character minimum is answered with the 400
too-small error, and the response does not depend on the external model, so
the payload is never forwarded (route.ts lines 67-73; under the advisory
rate ceiling). -/
theorem c7_small_payload_rejected (counts : List (String × Nat)) (ip img : String)
    (model : Nat → String → String → ModelOutcome)
    (hcount : (mapGet counts ip).getD 0 + 1 ≤ RATE_LIMIT_max)
    (hre : base64RegexTest img = true)
    (hlen : (((jsSplitB64 img).get? 1).getD "").length < 1000) :
    (POSTocr counts ip (some img) model).2
        = ⟨400, .errorBody "Image data too small. Please upload a higher quality image."⟩
      ∧ ∀ model', POSTocr counts ip (some img) model'
          = POSTocr counts ip (some img) model := by
  obtain ⟨A, payload, hsplit, hA, hP, hdata⟩ := jsSplitB64_of_regex img hre
  have hc : ¬ ((mapGet counts ip).getD 0 + 1 > RATE_LIMIT_max) := by omega
  have him : img ≠ "" := by
    intro h
    rw [h] at hdata
    have hnil : ([] : List Char) = (A ++ (";base64,").data) ++ payload := hdata
    exact hP (List.append_eq_nil.mp hnil.symm).2
  have hAne : (⟨A⟩ : String) ≠ "" := by
    intro h
    exact hA (congrArg String.data h)
  have hPne : (⟨payload⟩ : String) ≠ "" := by
    intro h
    exact hP (congrArg String.data h)
  have hdat : ((jsSplitB64 img).get? 1).getD "" = (⟨payload⟩ : String) := by
    rw [hsplit]
    simp
  have hmime2 : ((jsSplitB64 img)[0]?).getD "" = (⟨A⟩ : String) := by
    rw [hsplit]
    simp
  have hdat2 : ((jsSplitB64 img)[1]?).getD "" = (⟨payload⟩ : String) := by
    rw [hsplit]
    simp
  rw [hdat] at hlen
  have hlen2 : payload.length < 1000 := by simpa using hlen
  constructor
  · simp [POSTocr, POSTrespOcr, hc, him, hre, hmime2, hdat2, hAne, hPne, hlen2]
  · intro model'
    simp [POSTocr, POSTrespOcr, hc, him, hre, hmime2, hdat2, hAne, hPne, hlen2]

/-- C7 witness: a four-character payload in a well-formed png data URL is
rejected as too small, identically for two different external models. -/
theorem c7_small_payload_rejected_witness :
    (POSTocr [] "client" (some "data:image/png;base64,AAAA")
        (fun _ _ _ => ModelOutcome.ok "hi")).2
        = ⟨400, .errorBody "Image data too small. Please upload a higher quality image."⟩
      ∧ POSTocr [] "client" (some "data:image/png;base64,AAAA")
            (fun _ _ _ => ModelOutcome.otherThrow)
          = POSTocr [] "client" (some "data:image/png;base64,AAAA")
            (fun _ _ _ => ModelOutcome.ok "hi") := by
  have h := c7_small_payload_rejected [] "client" "data:image/png;base64,AAAA"
    (fun _ _ _ => ModelOutcome.ok "hi") (by decide) (by decide) (by decide)
  exact ⟨h.1, h.2 _⟩

/-- A cons has the last-char property of its tail (trivially when the tail
is empty). -/
theorem lastNonWS_of_cons (c : Char) (cs : List Char)
    (h : lastNonWS (c :: cs) = true) : lastNonWS cs = true := by
  cases hcs : cs with
  | nil => simp [lastNonWS, headNonWS]
  | cons a t =>
    subst hcs
    unfold lastNonWS at h ⊢
    rw [List.reverse_cons] at h
    cases hr : (a :: t).reverse with
    | nil => simp at hr
    | cons b u =>
      rw [hr] at h
      simpa [headNonWS] using h

/-- A whitespace head with the last-char property forces a nonempty tail. -/
theorem ne_nil_of_lastNonWS_ws (c : Char) (cs : List Char)
    (h : lastNonWS (c :: cs) = true) (hws : isWS c = true) : cs ≠ [] := by
  intro he
  subst he
  rw [show lastNonWS [c] = !isWS c from by simp [lastNonWS, headNonWS]] at h
  rw [hws] at h
  exact absurd h (by decide)

/-- Joint length computation for the split model: on input ending in a
non-whitespace character, the piece count of the in-token scanner is the
token count of the remaining input plus one, and the piece count of the
whitespace-run scanner (on nonempty input) is exactly the token count. -/
theorem splitWS_length (l : List Char) :
    (∀ cur, lastNonWS l = true → (splitWSTok l cur).length = tokCountIn l + 1)
      ∧ (lastNonWS l = true → l ≠ [] → (splitWSRun l).length = tokCount l) := by
  induction l with
  | nil =>
    constructor
    · intro cur _
      simp [splitWSTok, tokCountIn]
    · intro _ h
      exact absurd rfl h
  | cons c cs ih =>
    obtain ⟨ihT, ihR⟩ := ih
    constructor
    · intro cur hlast
      cases hws : isWS c with
      | true =>
        have hne := ne_nil_of_lastNonWS_ws c cs hlast hws
        have htail := lastNonWS_of_cons c cs hlast
        simp only [splitWSTok, hws, if_true, List.length_cons, tokCountIn]
        rw [ihR htail hne]
      | false =>
        have htail := lastNonWS_of_cons c cs hlast
        simp only [splitWSTok, hws, if_false, Bool.false_eq_true, tokCountIn]
        exact ihT (c :: cur) htail
    · intro hlast hne
      cases hws : isWS c with
      | true =>
        have hne' := ne_nil_of_lastNonWS_ws c cs hlast hws
        have htail := lastNonWS_of_cons c cs hlast
        simp only [splitWSRun, hws, if_true, tokCount]
        exact ihR htail hne'
      | false =>
        have htail := lastNonWS_of_cons c cs hlast
        simp only [splitWSRun, hws, if_false, Bool.false_eq_true, tokCount]
        rw [ihT [c] htail]

/-- On a nonempty input with non-whitespace first and last characters, the
JS split(/\s+/) piece count equals the whitespace-delimited token count. -/
theorem splitWSTok_length_eq_tokCount (l : List Char) (hne : l ≠ [])
    (hhead : headNonWS l = true) (hlast : lastNonWS l = true) :
    (splitWSTok l []).length = tokCount l := by
  cases l with
  | nil => exact absurd rfl hne
  | cons c cs =>
    have hws : isWS c = false := by simpa [headNonWS] using hhead
    have h1 := (splitWS_length (c :: cs)).1 [] hlast
    rw [h1]
    simp [tokCount, tokCountIn, hws]

/-- Dropping leading whitespace leaves a non-whitespace head. -/
theorem headNonWS_dropWhile (l : List Char) :
    headNonWS (l.dropWhile isWS) = true := by
  induction l with
  | nil => rfl
  | cons c cs ih =>
    rw [List.dropWhile_cons]
    by_cases h : isWS c = true
    · rw [if_pos h]
      exact ih
    · rw [if_neg h]
      simp [headNonWS, h]

/-- Removing a trailing segment (here: trailing whitespace) preserves a
non-whitespace head. -/
theorem headNonWS_trim_right (m : List Char) (hm : headNonWS m = true) :
    headNonWS ((m.reverse.dropWhile isWS).reverse) = true := by
  have hsplit : m.reverse.takeWhile isWS ++ m.reverse.dropWhile isWS = m.reverse :=
    List.takeWhile_append_dropWhile isWS m.reverse
  have hm2 : m = (m.reverse.dropWhile isWS).reverse
      ++ (m.reverse.takeWhile isWS).reverse := by
    conv_lhs => rw [← List.reverse_reverse m, ← hsplit]
    rw [List.reverse_append]
  cases hd : (m.reverse.dropWhile isWS).reverse with
  | nil => rfl
  | cons a t =>
    rw [hm2, hd] at hm
    simpa [headNonWS] using hm

/-- The trim model leaves a non-whitespace first character. -/
theorem trimL_headNonWS (l : List Char) : headNonWS (trimL l) = true := by
  unfold trimL
  exact headNonWS_trim_right _ (headNonWS_dropWhile l)

/-- The trim model leaves a non-whitespace last character. -/
theorem trimL_lastNonWS (l : List Char) : lastNonWS (trimL l) = true := by
  unfold trimL lastNonWS
  rw [List.reverse_reverse]
  exact headNonWS_dropWhile _

/-- C1: for every text returned as a 200 success by the handler's response
mapping (hence nonempty and trimmed, route.ts line 110), the JSONData object
serialized by the json export carries a wordCount equal to the number of
whitespace-delimited tokens of the text and a characterCount equal to the
text's length (OCR.tsx lines 255-265). -/
theorem c1_json_counts (raw t now : String)
    (h : mapModelText raw = ⟨200, .textBody t⟩) :
    (jsonDataOf t now).wordCount = wsTokenCount t
      ∧ (jsonDataOf t now).characterCount = t.length := by
  unfold mapModelText at h
  by_cases hcond : jsTrim raw = "" ∨ jsTrim raw = "[NO_TEXT_FOUND]"
  · simp [hcond] at h
  · simp only [hcond, if_false, HResp.mk.injEq, JsonBody.textBody.injEq] at h
    obtain ⟨-, ht⟩ := h
    have hne : jsTrim raw ≠ "" := (not_or.mp hcond).1
    subst ht
    constructor
    · show (jsSplitWS (jsTrim raw)).length = wsTokenCount (jsTrim raw)
      unfold jsSplitWS wsTokenCount
      rw [List.length_map]
      apply splitWSTok_length_eq_tokCount
      · intro hnil
        exact hne (String.ext hnil)
      · exact trimL_headNonWS raw.data
      · exact trimL_lastNonWS raw.data
    · rfl

/-- C1 witness: the trimmed success text hello world has two
whitespace-delimited tokens and eleven characters, matching the json
export fields. -/
theorem c1_json_counts_witness :
    (jsonDataOf "hello world" "2024-01-01T00:00:00.000Z").wordCount
        = wsTokenCount "hello world"
      ∧ (jsonDataOf "hello world" "2024-01-01T00:00:00.000Z").characterCount
        = ("hello world").length :=
  c1_json_counts "hello world" "hello world" "2024-01-01T00:00:00.000Z" (by decide)

/-- Decimal digit characters are never newlines. -/
theorem digitChar_ne_nl (n : Nat) (hn : n < 10) : Nat.digitChar n ≠ '\n' := by
  interval_cases n <;> decide

/-- The decimal rendering of a number contains no newline. -/
theorem natToCharsAux_no_nl (fuel : Nat) :
    ∀ n acc, (∀ c ∈ acc, c ≠ '\n') → ∀ c ∈ natToCharsAux fuel n acc, c ≠ '\n' := by
  induction fuel with
  | zero => intro n acc hacc; exact hacc
  | succ fuel ih =>
    intro n acc hacc c hc
    unfold natToCharsAux at hc
    by_cases h : n < 10
    · rw [if_pos h] at hc
      rcases List.mem_cons.mp hc with hc | hc
      · subst hc
        exact digitChar_ne_nl n h
      · exact hacc c hc
    · rw [if_neg h] at hc
      refine ih (n / 10) _ ?_ c hc
      intro d hd
      rcases List.mem_cons.mp hd with hd | hd
      · subst hd
        exact digitChar_ne_nl _ (Nat.mod_lt _ (by omega))
      · exact hacc d hd

/-- natToChars emits no newline. -/
theorem natToChars_no_nl (n : Nat) : ∀ c ∈ natToChars n, c ≠ '\n' :=
  natToCharsAux_no_nl (n + 1) n [] (by simp)

/-- Quote doubling introduces no newline. -/
theorem dqEsc_no_nl (l : List Char) (h : ∀ c ∈ l, c ≠ '\n') :
    ∀ c ∈ dqEsc l, c ≠ '\n' := by
  induction l with
  | nil =>
    intro c hc
    simp [dqEsc] at hc
  | cons a as ih =>
    have has : ∀ x ∈ as, x ≠ '\n' := fun x hx => h x (List.mem_cons.mpr (Or.inr hx))
    have ha : a ≠ '\n' := h a (List.mem_cons.mpr (Or.inl rfl))
    intro d hd
    unfold dqEsc at hd
    by_cases hq : a = '"'
    · rw [if_pos hq] at hd
      rcases List.mem_cons.mp hd with hd | hd
      · subst hd
        decide
      · rcases List.mem_cons.mp hd with hd | hd
        · subst hd
          decide
        · exact ih has d hd
    · rw [if_neg hq] at hd
      rcases List.mem_cons.mp hd with hd | hd
      · subst hd
        exact ha
      · exact ih has d hd

/-- The newline split always yields at least one piece. -/
theorem splitNl_ne_nil (l : List Char) : splitNl l ≠ [] := by
  cases l with
  | nil => simp [splitNl]
  | cons c cs =>
    unfold splitNl
    cases splitNl cs with
    | nil => simp
    | cons h t =>
      by_cases hc : c = '\n' <;> simp [hc]

/-- No piece of the newline split contains a newline. -/
theorem splitNl_no_nl (l : List Char) :
    ∀ p ∈ splitNl l, ∀ c ∈ p, c ≠ '\n' := by
  induction l with
  | nil => simp [splitNl]
  | cons c cs ih =>
    intro p hp d hd
    unfold splitNl at hp
    cases hs : splitNl cs with
    | nil => exact absurd hs (splitNl_ne_nil cs)
    | cons h t =>
      rw [hs] at hp
      dsimp only at hp
      by_cases hc : c = '\n'
      · rw [if_pos hc] at hp
        rcases List.mem_cons.mp hp with hp | hp
        · subst hp
          cases hd
        · exact ih p (hs ▸ hp) d hd
      · rw [if_neg hc] at hp
        rcases List.mem_cons.mp hp with hp | hp
        · subst hp
          rcases List.mem_cons.mp hd with hd | hd
          · subst hd
            exact hc
          · exact ih h (hs ▸ List.mem_cons_self h t) d hd
        · exact ih p (hs ▸ List.mem_cons.mpr (Or.inr hp)) d hd

/-- Splitting at a newline that terminates a newline-free piece peels that
piece off. -/
theorem splitNl_append_nl (a b : List Char) (ha : ∀ c ∈ a, c ≠ '\n') :
    splitNl (a ++ '\n' :: b) = a :: splitNl b := by
  induction a with
  | nil =>
    simp only [List.nil_append]
    rw [splitNl.eq_def]
    dsimp only
    cases hb : splitNl b with
    | nil => exact absurd hb (splitNl_ne_nil b)
    | cons h t => simp
  | cons c a' ih =>
    have ha' : ∀ x ∈ a', x ≠ '\n' := fun x hx => ha x (by simp [hx])
    have hc : c ≠ '\n' := ha c (by simp)
    rw [List.cons_append]
    rw [splitNl.eq_def]
    dsimp only
    rw [ih ha']
    dsimp only
    rw [if_neg hc]

/-- One CSV data row contains no newline when its source line does not. -/
theorem csvRowOf_no_nl (i : Nat) (ln : List Char) (h : ∀ c ∈ ln, c ≠ '\n') :
    ∀ c ∈ csvRowOf i ln, c ≠ '\n' := by
  intro c hc
  unfold csvRowOf at hc
  rcases List.mem_append.mp hc with hc | hc
  · exact natToChars_no_nl _ c hc
  · rcases List.mem_cons.mp hc with hc | hc
    · subst hc
      decide
    · rcases List.mem_cons.mp hc with hc | hc
      · subst hc
        decide
      · rcases List.mem_append.mp hc with hc | hc
        · exact dqEsc_no_nl ln h c hc
        · rcases List.mem_cons.mp hc with hc | hc
          · subst hc
            decide
          · cases hc

/-- Splitting the rendered data rows at newlines recovers exactly the
spec-side row list plus the trailing empty piece of the final newline. -/
theorem splitNl_csvRowsL (lines : List (List Char))
    (hl : ∀ p ∈ lines, ∀ c ∈ p, c ≠ '\n') :
    ∀ i, splitNl (csvRowsL i lines) = csvRowsSpec i lines ++ [[]] := by
  induction lines with
  | nil =>
    intro i
    simp [csvRowsL, csvRowsSpec, splitNl]
  | cons ln lns ih =>
    intro i
    have hrow : csvRowsL i (ln :: lns)
        = csvRowOf i ln ++ '\n' :: csvRowsL (i + 1) lns := by
      show natToChars (i + 1) ++ ',' :: '"' :: (dqEsc ln ++ '"' :: '\n' :: csvRowsL (i + 1) lns)
          = csvRowOf i ln ++ '\n' :: csvRowsL (i + 1) lns
      unfold csvRowOf
      simp
    rw [hrow,
      splitNl_append_nl _ _ (csvRowOf_no_nl i ln (hl ln (by simp)))]
    rw [ih (fun p hp => hl p (by simp [hp])) (i + 1)]
    simp [csvRowsSpec]

/-- The spec-side row list has one row per line. -/
theorem csvRowsSpec_length :
    ∀ (i : Nat) (lines : List (List Char)),
      (csvRowsSpec i lines).length = lines.length := by
  intro i lines
  induction lines generalizing i with
  | nil => rfl
  | cons ln lns ih => simp [csvRowsSpec, ih]

/-- C6 counterexample: the claim fails at the empty text, which contains
zero non-blank lines but whose CSV view is the empty string (OCR.tsx line
253) rather than one header row followed by zero data rows. -/
theorem c6_counterexample :
    getFormattedData .csv "" "2024-01-01T00:00:00.000Z"
      ≠ "Line Number,Content\n" := by
  decide

/-- C6 amended: for every nonempty text, splitting the CSV view at newlines
yields exactly the header row, then one data row per non-blank line in
order (row k carrying index k+1 and the content field in double quotes with
embedded double quotes doubled), then the empty piece of the terminating
newline; the number of data rows equals the number of non-blank lines. -/
theorem c6_csv_structure (t now : String) (hne : t ≠ "") :
    splitNl (getFormattedData .csv t now).data
        = csvHeader :: (csvRowsSpec 0 (nonBlankLinesL t.data) ++ [[]])
      ∧ (csvRowsSpec 0 (nonBlankLinesL t.data)).length
        = (nonBlankLinesL t.data).length := by
  constructor
  · have hview : (getFormattedData .csv t now).data = csvFormatL t.data := by
      unfold getFormattedData
      rw [if_neg hne]
    rw [hview]
    unfold csvFormatL
    have hnb : ∀ p ∈ nonBlankLinesL t.data, ∀ c ∈ p, c ≠ '\n' := by
      intro p hp
      exact splitNl_no_nl t.data p (List.mem_of_mem_filter hp)
    rw [splitNl_append_nl csvHeader _ (by decide)]
    rw [splitNl_csvRowsL _ hnb 0]
  · exact csvRowsSpec_length 0 _

/-- C6 witness: a text with an embedded quote, a blank line and a second
line splits into the header, two data rows with doubled quotes, and the
final empty piece. -/
theorem c6_csv_structure_witness :
    splitNl (getFormattedData .csv "say \"hi\"\n\nbye" "T").data
        = csvHeader :: (csvRowsSpec 0 (nonBlankLinesL ("say \"hi\"\n\nbye").data) ++ [[]])
      ∧ (csvRowsSpec 0 (nonBlankLinesL ("say \"hi\"\n\nbye").data)).length
        = (nonBlankLinesL ("say \"hi\"\n\nbye").data).length :=
  c6_csv_structure "say \"hi\"\n\nbye" "T" (by decide)

/-- C9 witness: a timeout message (with neither of the earlier substrings)
classifies as 408, and two models agreeing on their first call produce the
same handler result. -/
theorem c9_error_classification_witness :
    classifyError "a timeout occurred"
        = (408, "Processing timeout. Please try a smaller image.")
      ∧ POSTocr [] "client" (some "data:image/png;base64,AAAA")
            (fun n _ _ => if n = 0 then ModelOutcome.ok "x" else ModelOutcome.otherThrow)
          = POSTocr [] "client" (some "data:image/png;base64,AAAA")
            (fun _ _ _ => ModelOutcome.ok "x") := by
  have h := c9_error_classification "a timeout occurred"
  exact ⟨h.2.2.1 (by decide) (by decide) (by decide),
         h.2.2.2.2 [] "client" (some "data:image/png;base64,AAAA") _ _
           (fun _ _ => by simp)⟩

end OCR
